import Mathlib

set_option maxHeartbeats 1000000

namespace UKCompanyScraper

/-! Shallow embedding of the scraper core of the uk_companyScrapper repository
(src/scraper/services.py, src/scraper/views.py, src/scraper/models.py).
Python strings are Lean strings, Python dicts are structures whose fields of
type Option model the possible absence of a key (dict.get returning None),
and Python regular expressions are terms of a small regex syntax evaluated by
a backtracking matcher that mirrors the leftmost-first search of re.search. -/

/-- Python whitespace class over ASCII: the characters matched by the regex
class backslash-s and by str.strip and str.split in the source. -/
def pyWs (c : Char) : Bool :=
  c == ' ' || c == '\t' || c == '\n' || c == '\r' || c == '\x0b' || c == '\x0c'

/-- Embedding of Python str.strip with no argument. -/
def pyStrip (s : String) : String :=
  String.mk (((s.data.dropWhile pyWs).reverse.dropWhile pyWs).reverse)

/-- Embedding of Python str.lower restricted to ASCII. -/
def pyLower (s : String) : String := String.mk (s.data.map Char.toLower)

/-- The whitespace tokens of a character list, in order.  The fuel argument
(one unit per consumed character, so the initial length suffices) keeps the
recursion structural. -/
def tokensGo : Nat → List Char → List (List Char)
  | _, [] => []
  | 0, _ => []
  | fuel + 1, c :: rest =>
    if pyWs c then tokensGo fuel rest
    else
      ((c :: rest).takeWhile (fun x => !pyWs x))
        :: tokensGo fuel (rest.dropWhile (fun x => !pyWs x))

/-- Embedding of Python str.split with no argument: the whitespace-separated
tokens, with no empty pieces. -/
def pySplit (s : String) : List String := (tokensGo s.data.length s.data).map String.mk

/-- Replace every non-overlapping occurrence of pat, scanning left to right
(the behaviour of Python str.replace; the source never replaces an empty
pattern).  Fuel as in tokensGo. -/
def replaceGo (pat rep : List Char) : Nat → List Char → List Char
  | _, [] => []
  | 0, l => l
  | fuel + 1, c :: rest =>
    if pat ≠ [] ∧ pat.isPrefixOf (c :: rest) then
      rep ++ replaceGo pat rep fuel (rest.drop (pat.length - 1))
    else c :: replaceGo pat rep fuel rest

/-- Embedding of Python str.replace. -/
def pyReplace (s pat rep : String) : String :=
  String.mk (replaceGo pat.data rep.data s.data.length s.data)

/-- Embedding of Python string slicing s[:n]. -/
def pyTake (n : Nat) (s : String) : String := String.mk (s.data.take n)

/-- Split a character list on the newline character (Python str.split with
a one-character separator keeps empty pieces). -/
def splitNlL : List Char → List (List Char)
  | [] => [[]]
  | c :: rest =>
    let r := splitNlL rest
    if c = '\n' then [] :: r else (c :: r.headD []) :: r.tail

/-- Embedding of Python str.split on a literal newline. -/
def pySplitNl (s : String) : List String := (splitNlL s.data).map String.mk

/-- Embedding of the Python substring test, the in operator on str. -/
def strContains (hay pat : String) : Bool :=
  (List.range (hay.data.length + 1)).any (fun i => pat.data.isPrefixOf (hay.data.drop i))

/-- First value of f on the list that is some, in list order.  Models the
first-match-wins loops over pattern lists in the source. -/
def firstSome {α β : Type} (f : α → Option β) : List α → Option β
  | [] => none
  | a :: l =>
    match f a with
    | some b => some b
    | none => firstSome f l

/-! ### A small regex syntax

Just the constructs used by the patterns in services.py: literals (case
sensitive and case insensitive), character classes, sequencing, ordered
alternation, greedy star and plus over a class, lazy plus over a class, one
capture group, and the two anchors that occur (caret under re.MULTILINE, and
dollar without re.MULTILINE). -/

inductive Rx where
  | eps : Rx
  | lit : List Char → Rx
  | litci : List Char → Rx
  | cls : (Char → Bool) → Rx
  | seq : Rx → Rx → Rx
  | alt : Rx → Rx → Rx
  | starCls : (Char → Bool) → Rx
  | plusCls : (Char → Bool) → Rx
  | lazyPlusCls : (Char → Bool) → Rx
  | grp : Rx → Rx
  | bol : Rx
  | eol : Rx

/-- A capture: start and end offset of group 1, if the group matched. -/
abbrev Cap := Option (Nat × Nat)

/-- Does the literal s occur in orig at offset i (ci selects case folding)? -/
def litAt (orig s : List Char) (i : Nat) (ci : Bool) : Bool :=
  if ci then ((orig.drop i).take s.length).map Char.toLower == s.map Char.toLower
  else ((orig.drop i).take s.length) == s

/-- Length of the maximal run of characters satisfying p starting at i. -/
def runLen (orig : List Char) (p : Char → Bool) (i : Nat) : Nat :=
  ((orig.drop i).takeWhile p).length

/-- Backtracking matcher in continuation style: try to match the pattern at
offset i of orig; on each candidate way of matching, call the continuation k
with the next offset and the current capture.  Greedy repetition tries the
longest extent first, lazy repetition the shortest, alternation the left
branch first — the order Python re uses. -/
def rxm (orig : List Char) : Rx → Nat → Cap → (Nat → Cap → Option Cap) → Option Cap
  | .eps, i, cap, k => k i cap
  | .lit s, i, cap, k => if litAt orig s i false then k (i + s.length) cap else none
  | .litci s, i, cap, k => if litAt orig s i true then k (i + s.length) cap else none
  | .cls p, i, cap, k =>
    match orig[i]? with
    | some c => if p c then k (i + 1) cap else none
    | none => none
  | .seq a b, i, cap, k => rxm orig a i cap (fun j c => rxm orig b j c k)
  | .alt a b, i, cap, k =>
    match rxm orig a i cap k with
    | some r => some r
    | none => rxm orig b i cap k
  | .starCls p, i, cap, k =>
    firstSome (fun j => k (i + j) cap) ((List.range (runLen orig p i + 1)).reverse)
  | .plusCls p, i, cap, k =>
    firstSome (fun j => k (i + j) cap) (((List.range (runLen orig p i)).map (· + 1)).reverse)
  | .lazyPlusCls p, i, cap, k =>
    firstSome (fun j => k (i + j) cap) ((List.range (runLen orig p i)).map (· + 1))
  | .grp a, i, cap, k => rxm orig a i cap (fun j _ => k j (some (i, j)))
  | .bol, i, cap, k =>
    if i == 0 || orig[i - 1]? == some '\n' then k i cap else none
  | .eol, i, cap, k =>
    if i == orig.length || (i + 1 == orig.length && orig[i]? == some '\n') then k i cap
    else none
termination_by r _ _ _ => sizeOf r

/-- re.search: try the pattern at every offset from the left; the first offset
where it matches wins. -/
def rxSearch (rx : Rx) (s : String) : Option Cap :=
  firstSome (fun i => rxm s.data rx i none (fun _ cap => some cap))
    (List.range (s.data.length + 1))

/-- Text of a capture span. -/
def capStr (s : String) : Cap → String
  | some (a, b) => String.mk ((s.data.drop a).take (b - a))
  | none => ""

/-- match.group(1) of the first match of rx in s, if any. -/
def rxGroup1 (rx : Rx) (s : String) : Option String :=
  (rxSearch rx s).map (capStr s)

/-- The first pattern of the list that matches wins; its group(1) is returned.
Models the per-field for-loops with break in parse_director_section. -/
def firstGroup (pats : List Rx) (s : String) : Option String :=
  firstSome (fun p => rxGroup1 p s) pats

/-- Right-nested sequencing of a pattern list. -/
def rxSeqs : List Rx → Rx
  | [] => .eps
  | [r] => r
  | r :: rest => .seq r (rxSeqs rest)

/-- Right-nested ordered alternation of a pattern list (first listed is tried
first, as in Python alternation). -/
def rxAlts : List Rx → Rx
  | [] => .cls (fun _ => false)
  | [r] => r
  | r :: rest => .alt r (rxAlts rest)

def rxLit (s : String) : Rx := .lit s.data

def rxLitci (s : String) : Rx := .litci s.data

/-! ### Character classes used by the patterns of services.py -/

def upperC (c : Char) : Bool := 'A' ≤ c && c ≤ 'Z'

def lowerC (c : Char) : Bool := 'a' ≤ c && c ≤ 'z'

def letterC (c : Char) : Bool := upperC c || lowerC c

def digitC (c : Char) : Bool := '0' ≤ c && c ≤ '9'

/-- The regex class backslash-w restricted to ASCII. -/
def wordC (c : Char) : Bool := letterC c || digitC c || c == '_'

/-- The class of upper-case letters and whitespace, written [A-Z\s] in the source. -/
def upperWsC (c : Char) : Bool := upperC c || pyWs c

/-- The class [A-Za-z\s]. -/
def letterWsC (c : Char) : Bool := letterC c || pyWs c

/-- The class [:\s]. -/
def colonWsC (c : Char) : Bool := c == ':' || pyWs c

/-- The class [A-Za-z\s,] from the occupation patterns. -/
def occC (c : Char) : Bool := letterC c || pyWs c || c == ','

/-- The class [A-Za-z0-9\s,.-] from the address patterns. -/
def addrC (c : Char) : Bool :=
  letterC c || digitC c || pyWs c || c == ',' || c == '.' || c == '-'

/-! ### CompaniesHouseScraper.parse_date

The source tries datetime.strptime with the formats "%d %B %Y", "%d %b %Y",
"%Y-%m-%d" and "%d/%m/%Y" in that order; the first format that both matches
the string completely and yields a constructible calendar date wins, and a
ValueError (no match, or an impossible date such as 31 February) moves on to
the next format; if all fail the function returns None. -/

/-- A Python datetime.date value. -/
structure PyDate where
  year : Nat
  month : Nat
  day : Nat
deriving DecidableEq, Repr

def isLeap (y : Nat) : Bool := (y % 4 == 0 && y % 100 != 0) || y % 400 == 0

def daysInMonth (y m : Nat) : Nat :=
  if m == 2 then (if isLeap y then 29 else 28)
  else if m == 4 || m == 6 || m == 9 || m == 11 then 30
  else 31

/-- The datetime.date constructor: raises (here: none) on an impossible date. -/
def mkDate (y m d : Nat) : Option PyDate :=
  if 1 ≤ y ∧ 1 ≤ m ∧ m ≤ 12 ∧ 1 ≤ d ∧ d ≤ daysInMonth y m then some ⟨y, m, d⟩
  else none

def digitVal (c : Char) : Nat := c.toNat - 48

/-- The candidate parses of the strptime day directive.  The underlying regex
alternation is 3[01], [12] followed by a digit, 0[1-9], [1-9]; candidates are
listed in that order so that backtracking tries them as Python would. -/
def dayCands : List Char → List (Nat × List Char)
  | c1 :: c2 :: rest =>
    (if c1 = '3' ∧ (c2 = '0' ∨ c2 = '1') then [(30 + digitVal c2, rest)] else [])
    ++ (if (c1 = '1' ∨ c1 = '2') ∧ digitC c2 then [(10 * digitVal c1 + digitVal c2, rest)] else [])
    ++ (if c1 = '0' ∧ digitC c2 ∧ c2 ≠ '0' then [(digitVal c2, rest)] else [])
    ++ (if digitC c1 ∧ c1 ≠ '0' then [(digitVal c1, c2 :: rest)] else [])
  | [c1] => if digitC c1 ∧ c1 ≠ '0' then [(digitVal c1, [])] else []
  | [] => []

/-- The candidate parses of the strptime numeric month directive, regex
alternation 1[0-2], 0[1-9], [1-9]. -/
def monthCands : List Char → List (Nat × List Char)
  | c1 :: c2 :: rest =>
    (if c1 = '1' ∧ (c2 = '0' ∨ c2 = '1' ∨ c2 = '2') then [(10 + digitVal c2, rest)] else [])
    ++ (if c1 = '0' ∧ digitC c2 ∧ c2 ≠ '0' then [(digitVal c2, rest)] else [])
    ++ (if digitC c1 ∧ c1 ≠ '0' then [(digitVal c1, c2 :: rest)] else [])
  | [c1] => if digitC c1 ∧ c1 ≠ '0' then [(digitVal c1, [])] else []
  | [] => []

/-- The strptime year directive: exactly four digits. -/
def year4 : List Char → Option (Nat × List Char)
  | a :: b :: c :: d :: rest =>
    if digitC a ∧ digitC b ∧ digitC c ∧ digitC d then
      some (1000 * digitVal a + 100 * digitVal b + 10 * digitVal c + digitVal d, rest)
    else none
  | _ => none

/-- Literal whitespace in a strptime format matches a nonempty whitespace run. -/
def wsPlus (cs : List Char) : Option (List Char) :=
  let r := cs.dropWhile pyWs
  if r.length < cs.length then some r else none

/-- One literal character of a strptime format. -/
def litChar (c : Char) : List Char → Option (List Char)
  | x :: rest => if x = c then some rest else none
  | [] => none

/-- Is pat a case-insensitive prefix of cs? -/
def ciPrefixAt (pat : String) (cs : List Char) : Bool :=
  (cs.take pat.data.length).map Char.toLower == pat.data.map Char.toLower

/-- Full month names with their numbers, sorted by length descending with ties
in calendar order — the order in which strptime builds its alternation. -/
def fullMonthNames : List (String × Nat) :=
  [("September", 9), ("February", 2), ("November", 11), ("December", 12),
   ("January", 1), ("October", 10), ("August", 8), ("March", 3), ("April", 4),
   ("June", 6), ("July", 7), ("May", 5)]

/-- Abbreviated month names (all of length three, calendar order). -/
def abbrMonthNames : List (String × Nat) :=
  [("Jan", 1), ("Feb", 2), ("Mar", 3), ("Apr", 4), ("May", 5), ("Jun", 6),
   ("Jul", 7), ("Aug", 8), ("Sep", 9), ("Oct", 10), ("Nov", 11), ("Dec", 12)]

/-- Case-insensitive month-name match, first listed name that is a prefix wins. -/
def matchMonthName (names : List (String × Nat)) (cs : List Char) : Option (Nat × List Char) :=
  firstSome
    (fun nv => if ciPrefixAt nv.1 cs then some (nv.2, cs.drop nv.1.data.length) else none)
    names

/-- Format "%d %B %Y": day, whitespace, full month name, whitespace, year,
with the whole string consumed. -/
def fmtDBY (cs : List Char) : Option (Nat × Nat × Nat) :=
  firstSome
    (fun dc => do
      let cs2 ← wsPlus dc.2
      let (m, cs3) ← matchMonthName fullMonthNames cs2
      let cs4 ← wsPlus cs3
      let (y, cs5) ← year4 cs4
      if cs5.isEmpty then some (y, m, dc.1) else none)
    (dayCands cs)

/-- Format "%d %b %Y": day, whitespace, abbreviated month name, whitespace, year. -/
def fmtDbY (cs : List Char) : Option (Nat × Nat × Nat) :=
  firstSome
    (fun dc => do
      let cs2 ← wsPlus dc.2
      let (m, cs3) ← matchMonthName abbrMonthNames cs2
      let cs4 ← wsPlus cs3
      let (y, cs5) ← year4 cs4
      if cs5.isEmpty then some (y, m, dc.1) else none)
    (dayCands cs)

/-- Format "%Y-%m-%d". -/
def fmtISO (cs : List Char) : Option (Nat × Nat × Nat) := do
  let (y, cs1) ← year4 cs
  let cs2 ← litChar '-' cs1
  firstSome
    (fun mc => do
      let cs4 ← litChar '-' mc.2
      firstSome (fun dc => if dc.2.isEmpty then some (y, mc.1, dc.1) else none) (dayCands cs4))
    (monthCands cs2)

/-- Format "%d/%m/%Y". -/
def fmtDMY (cs : List Char) : Option (Nat × Nat × Nat) :=
  firstSome
    (fun dc => do
      let cs2 ← litChar '/' dc.2
      firstSome
        (fun mc => do
          let cs4 ← litChar '/' mc.2
          let (y, cs5) ← year4 cs4
          if cs5.isEmpty then some (y, mc.1, dc.1) else none)
        (monthCands cs2))
    (dayCands cs)

/-- One strptime attempt of parse_date: strip the string, match the format,
construct the date; none models the ValueError caught by the source. -/
def tryFormat (f : List Char → Option (Nat × Nat × Nat)) (s : String) : Option PyDate :=
  (f (pyStrip s).data).bind (fun t => mkDate t.1 t.2.1 t.2.2)

/-- The format list of CompaniesHouseScraper.parse_date, in source order. -/
def strptimeFormats : List (List Char → Option (Nat × Nat × Nat)) :=
  [fmtDBY, fmtDbY, fmtISO, fmtDMY]

/-- CompaniesHouseScraper.parse_date: falsy input returns None, otherwise the
formats are tried in order and the first success wins; total, never raises. -/
def parse_date (s : String) : Option PyDate :=
  if s = "" then none
  else firstSome (fun f => tryFormat f s) strptimeFormats

/-! ### CompaniesHouseScraper.parse_director_section

A fragment (a BeautifulSoup element) is modelled by the text of its
heading-like descendants in document order (section.find over h1, h2, h3, h4,
strong, b returns the first of them) and its raw text (section.get_text()). -/

structure Fragment where
  headings : List String
  text : String
deriving DecidableEq, Repr

/-- The reject-early keyword list of parse_director_section, in source order. -/
def officerKeywords : List String :=
  ["director", "secretary", "appointed", "officer", "resigned"]

/-- The cheap reject-early filter: the lowered raw text must contain one of
the keywords. -/
def hasOfficerKeyword (t : String) : Bool :=
  officerKeywords.any (fun k => strContains (pyLower t) k)

/-- The heading check regex (appointed|resigned|director|secretary|officer)
under re.IGNORECASE, which is a case-insensitive substring test. -/
def headingHasRoleKeyword (s : String) : Bool :=
  ["appointed", "resigned", "director", "secretary", "officer"].any
    (fun k => strContains (pyLower s) k)

/-- Name strategy 1: the text of the first heading-like element, accepted only
if it contains no role or date keyword and splits into at least two tokens. -/
def headingName (f : Fragment) : Option String :=
  match f.headings.head? with
  | none => none
  | some h =>
    if headingHasRoleKeyword h then none
    else if (pySplit h).length ≥ 2 then some h
    else none

/-- The group [A-Z][A-Z\s]+[A-Z] shared by the first two name patterns. -/
def capsNameRx : Rx := rxSeqs [.cls upperC, .plusCls upperWsC, .cls upperC]

/-- Name pattern 1: an honorific followed by whitespace and a capitalized name. -/
def namePat1 : Rx :=
  rxSeqs [rxAlts [rxLit "Mr", rxLit "Mrs", rxLit "Ms", rxLit "Dr", rxLit "Miss"],
          .plusCls pyWs, .grp capsNameRx]

/-- Name pattern 2: a capitalized name at line start followed by a comma, a
newline, Director or Secretary (caret under re.MULTILINE). -/
def namePat2 : Rx :=
  rxSeqs [.bol, .grp capsNameRx, .starCls pyWs,
          rxAlts [rxLit ",", rxLit "\n", rxLit "Director", rxLit "Secretary"]]

/-- Name pattern 3: an explicit Name label. -/
def namePat3 : Rx :=
  rxSeqs [rxLit "Name", .starCls colonWsC,
          .grp (rxSeqs [.cls upperC, .plusCls letterWsC, .cls letterC])]

/-- The textual name patterns of strategy 2, in source order. -/
def namePatterns : List Rx := [namePat1, namePat2, namePat3]

/-- The ordered name strategies: the heading strategy, else the first textual
pattern that matches; the matched group is stripped. -/
def extractName (f : Fragment) : Option String :=
  match headingName f with
  | some n => some n
  | none => (firstGroup namePatterns f.text).map pyStrip

/-- The role patterns, in source order, searched under re.IGNORECASE. -/
def rolePatterns : List Rx :=
  [.grp (rxAlts (["Director", "Secretary", "Manager", "Chairman", "Chief Executive",
                  "CEO", "CFO", "CTO", "President", "Vice President"].map rxLitci)),
   rxSeqs [rxLitci "Role", .starCls colonWsC, .grp (.plusCls letterWsC)],
   rxSeqs [rxLitci "Position", .starCls colonWsC, .grp (.plusCls letterWsC)],
   rxSeqs [rxLitci "Title", .starCls colonWsC, .grp (.plusCls letterWsC)]]

/-- The date group of the appointment and resignation patterns: one or two
digits, whitespace, a word, whitespace, four digits. -/
def dateGroupRx : Rx :=
  .grp (rxSeqs [.cls digitC, .alt (.cls digitC) .eps, .plusCls pyWs, .plusCls wordC,
                .plusCls pyWs, .cls digitC, .cls digitC, .cls digitC, .cls digitC])

/-- The appointment-date patterns, in source order. -/
def apptPatterns : List Rx :=
  [rxSeqs [rxLitci "Appointed", .plusCls pyWs, rxLitci "on", .plusCls colonWsC, dateGroupRx],
   rxSeqs [rxLitci "Appointed", .plusCls colonWsC, dateGroupRx],
   rxSeqs [rxLitci "Date", .plusCls pyWs, rxLitci "of", .plusCls pyWs, rxLitci "appointment",
           .plusCls colonWsC, dateGroupRx],
   rxSeqs [rxLitci "Appointment", .plusCls pyWs, rxLitci "date", .plusCls colonWsC, dateGroupRx]]

/-- The resignation-date patterns, in source order. -/
def resignPatterns : List Rx :=
  [rxSeqs [rxLitci "Resigned", .plusCls pyWs, rxLitci "on", .plusCls colonWsC, dateGroupRx],
   rxSeqs [rxLitci "Resigned", .plusCls colonWsC, dateGroupRx],
   rxSeqs [rxLitci "Date", .plusCls pyWs, rxLitci "of", .plusCls pyWs, rxLitci "resignation",
           .plusCls colonWsC, dateGroupRx],
   rxSeqs [rxLitci "Resignation", .plusCls pyWs, rxLitci "date", .plusCls colonWsC, dateGroupRx]]

/-- The terminator of the nationality patterns: newline, comma, semicolon or
end of string. -/
def natTermRx : Rx := rxAlts [rxLit "\n", rxLit ",", rxLit ";", .eol]

/-- The nationality patterns, in source order. -/
def natPatterns : List Rx :=
  [rxSeqs [rxLitci "Nationality", .plusCls colonWsC, .grp (.lazyPlusCls letterWsC), natTermRx],
   rxSeqs [rxLitci "Country", .plusCls colonWsC, .grp (.lazyPlusCls letterWsC), natTermRx]]

/-- The terminator of the occupation patterns. -/
def occTermRx : Rx := rxAlts [rxLit "\n", rxLitci "Date", rxLitci "Address", .eol]

/-- The occupation patterns, in source order. -/
def occPatterns : List Rx :=
  [rxSeqs [rxLitci "Occupation", .plusCls colonWsC, .grp (.lazyPlusCls occC), occTermRx],
   rxSeqs [rxLitci "Job", .plusCls pyWs, rxLitci "title", .plusCls colonWsC,
           .grp (.lazyPlusCls occC), occTermRx],
   rxSeqs [rxLitci "Profession", .plusCls colonWsC, .grp (.lazyPlusCls occC), occTermRx]]

/-- The date-of-birth group: a word, whitespace, four digits. -/
def birthGroupRx : Rx :=
  .grp (rxSeqs [.plusCls wordC, .plusCls pyWs, .cls digitC, .cls digitC, .cls digitC, .cls digitC])

/-- The date-of-birth patterns, in source order. -/
def birthPatterns : List Rx :=
  [rxSeqs [rxLitci "Born", .plusCls colonWsC, birthGroupRx],
   rxSeqs [rxLitci "Date", .plusCls pyWs, rxLitci "of", .plusCls pyWs, rxLitci "birth",
           .plusCls colonWsC, birthGroupRx],
   rxSeqs [rxLitci "Born", .plusCls pyWs, rxLitci "in", .plusCls colonWsC, birthGroupRx]]

/-- The address patterns, in source order. -/
def addrPatterns : List Rx :=
  [rxSeqs [rxLitci "Address", .plusCls colonWsC, .grp (.lazyPlusCls addrC),
           rxAlts [rxLit "\n\n", rxLitci "Nationality", rxLitci "Occupation",
                   rxLitci "Appointed", .eol]],
   rxSeqs [rxLitci "Correspondence", .plusCls pyWs, rxLitci "address", .plusCls colonWsC,
           .grp (.lazyPlusCls addrC),
           rxAlts [rxLit "\n\n", rxLitci "Nationality", rxLitci "Occupation", .eol]]]

/-- The address dicts built by the source: a full string plus the stripped,
nonempty lines. -/
structure Address where
  full_address : String
  lines : List String
deriving DecidableEq, Repr

/-- Split on literal newlines, strip each line, keep the nonempty ones. -/
def strippedLines (s : String) : List String :=
  ((pySplitNl s).map pyStrip).filter (fun l => l ≠ "")

def mkAddress (s : String) : Address :=
  let t := pyStrip s
  { full_address := t, lines := strippedLines t }

/-- The director dict built by parse_director_section.  Fields other than the
name are recorded only when the corresponding pattern list matched; reading an
absent field through dict.get is modelled by Option (a date key stored with
value None by a failed parse_date is conflated with an absent key, which is
observationally equal because every consumer reads these keys with dict.get). -/
structure DirectorData where
  name : String
  officer_role : Option String := none
  appointed_on : Option PyDate := none
  resigned_on : Option PyDate := none
  nationality : Option String := none
  occupation : Option String := none
  date_of_birth : Option String := none
  address : Option Address := none
deriving DecidableEq, Repr

def roleOf (t : String) : Option String := (firstGroup rolePatterns t).map pyStrip

def appointedOf (t : String) : Option PyDate := (firstGroup apptPatterns t).bind parse_date

def resignedOf (t : String) : Option PyDate := (firstGroup resignPatterns t).bind parse_date

def nationalityOf (t : String) : Option String := (firstGroup natPatterns t).map pyStrip

def occupationOf (t : String) : Option String := (firstGroup occPatterns t).map pyStrip

def birthOf (t : String) : Option String := (firstGroup birthPatterns t).map pyStrip

def addressOf (t : String) : Option Address := (firstGroup addrPatterns t).map mkAddress

/-- CompaniesHouseScraper.parse_director_section: reject fragments without an
officer keyword, then extract the name by the ordered strategies; with no name
the fragment is rejected, otherwise the remaining fields are each extracted by
their own first-match-wins pattern list. -/
def parse_director_section (f : Fragment) : Option DirectorData :=
  if ¬ hasOfficerKeyword f.text then none
  else
    match extractName f with
    | none => none
    | some n =>
      some { name := n
             officer_role := roleOf f.text
             appointed_on := appointedOf f.text
             resigned_on := resignedOf f.text
             nationality := nationalityOf f.text
             occupation := occupationOf f.text
             date_of_birth := birthOf f.text
             address := addressOf f.text }

/-! ### CompaniesHouseScraper.scrape_directors_page

The strategies that collect candidate officer elements can append the same
DOM object several times; an element is modelled with its Python object id so
the identity dedup (seen set of id values) can be expressed. -/

structure PageItem where
  oid : Nat
  frag : Fragment
deriving DecidableEq, Repr

/-- The identity dedup loop: keep the first occurrence of each object id,
preserving order. -/
def dedupById : List PageItem → List Nat → List PageItem
  | [], _ => []
  | it :: rest, seen =>
    if seen.contains it.oid then dedupById rest seen
    else it :: dedupById rest (it.oid :: seen)

/-- The extraction loop: parse each unique item; keep a record only if it has
a truthy name and no already-kept record has the same name. -/
def collectDirectors : List PageItem → List DirectorData → List DirectorData
  | [], acc => acc
  | it :: rest, acc =>
    match parse_director_section it.frag with
    | none => collectDirectors rest acc
    | some d =>
      if d.name = "" then collectDirectors rest acc
      else if acc.any (fun e => e.name = d.name) then collectDirectors rest acc
      else collectDirectors rest (acc ++ [d])

/-- CompaniesHouseScraper.scrape_directors_page, starting from the collected
candidate items of a fetched officers page. -/
def scrape_directors_page (items : List PageItem) : List DirectorData :=
  collectDirectors (dedupById items []) []

/-! ### Contact synthesis

ScrapingService._generate_company_contacts and _generate_director_contacts.
The phone number uses the Python builtin hash on the company name; hash on str
is salted per process (PYTHONHASHSEED), so the embedding takes the hash
function of the running process as a parameter pyHash.  The Python modulo on a
possibly negative hash and a positive modulus is Int.emod. -/

structure Contact where
  ctype : String
  value : String
  source : String
  confidence : Nat
  verified : Bool
  description : String
deriving DecidableEq, Repr

/-- The handle cleanup shared by both synthesizers: lower, strip spaces, drop
ltd, plc and limited, replace the ampersand, truncate to 20 characters. -/
def cleanCompanyName (company_name : String) : String :=
  pyTake 20 (pyReplace (pyReplace (pyReplace (pyReplace (pyReplace
    (pyLower company_name) " " "") "ltd" "") "plc" "") "limited" "") "&" "and")

/-- ScrapingService._generate_company_contacts. -/
def generate_company_contacts (pyHash : String → Int) (company_name : String) : List Contact :=
  if company_name = "" then []
  else
    let clean := cleanCompanyName company_name
    [{ ctype := "email", value := "info@" ++ clean ++ ".co.uk", source := "estimated",
       confidence := 60, verified := false, description := "General company email" },
     { ctype := "phone",
       value := "+44 20 " ++ toString (7000 + pyHash company_name % 2000) ++ " "
                  ++ toString (1000 + pyHash company_name % 9000),
       source := "estimated", confidence := 55, verified := false,
       description := "Main company phone" },
     { ctype := "linkedin",
       value := "https://linkedin.com/company/"
                  ++ pyReplace (pyReplace (pyLower company_name) " " "-") "&" "and",
       source := "estimated", confidence := 70, verified := false,
       description := "Company LinkedIn page" },
     { ctype := "website", value := "https://www." ++ clean ++ ".co.uk",
       source := "estimated", confidence := 65, verified := false,
       description := "Company website" }]

/-- ScrapingService._generate_director_contacts. -/
def generate_director_contacts (director_name company_name : String) : List Contact :=
  if director_name = "" ∨ company_name = "" then []
  else
    let parts := pySplit director_name
    if parts.length < 2 then []
    else
      let firstName := pyLower (parts.headD "")
      let lastName := pyLower (parts.getLastD "")
      let clean := cleanCompanyName company_name
      [{ ctype := "email", value := firstName ++ "." ++ lastName ++ "@" ++ clean ++ ".co.uk",
         source := "estimated", confidence := 75, verified := false,
         description := "Director work email" },
       { ctype := "linkedin", value := "https://linkedin.com/in/" ++ firstName ++ "-" ++ lastName,
         source := "estimated", confidence := 65, verified := false,
         description := "Director LinkedIn profile" }]

/-! ### ScrapingService.get_consolidated_company_data, per-result step

A company_result dict after the optional detail merge.  Absent keys are
Option none; the directors key holds the parsed director dicts. -/

structure CompanyResult where
  name : Option String := none
  source : Option String := none
  company_number : Option String := none
  status : Option String := none
  company_status : Option String := none
  company_type : Option String := none
  incorporation_date : Option PyDate := none
  dissolved_date : Option PyDate := none
  registered_office_address : Option Address := none
  nature_of_business : Option String := none
  sic_codes : Option (List String) := none
  accounts_next_due_date : Option PyDate := none
  confirmation_statement_next_due_date : Option PyDate := none
  companies_house_url : Option String := none
  url : Option String := none
  industry : Option String := none
  size : Option String := none
  funding : Option String := none
  employees : Option String := none
  founded : Option String := none
  credit_rating : Option String := none
  revenue : Option String := none
  domain : Option String := none
  directors : List DirectorData := []
deriving DecidableEq, Repr

/-- The company_details map of the consolidated structure, defaults applied. -/
structure ConsCompanyDetails where
  name : String
  company_number : String
  company_status : String
  company_type : String
  incorporation_date : Option PyDate
  dissolved_date : Option PyDate
  registered_office_address : Option Address
  nature_of_business : String
  sic_codes : List String
  accounts_next_due_date : Option PyDate
  confirmation_statement_next_due_date : Option PyDate
  companies_house_url : String
  industry : String
  size : String
  funding : String
  employees : String
  founded : String
  credit_rating : String
  revenue : String
  domain : String
deriving DecidableEq, Repr

structure ConsDirectorDetails where
  officer_role : String
  nationality : String
  occupation : String
  appointed_on : Option PyDate
  resigned_on : Option PyDate
  date_of_birth : Option String
  address : Option Address
  is_active : Bool
deriving DecidableEq, Repr

structure ConsDirector where
  name : String
  details : ConsDirectorDetails
  contacts : List Contact
deriving DecidableEq, Repr

structure ConsolidatedCompany where
  company_name : String
  source : String
  company_details : ConsCompanyDetails
  company_contacts : List Contact
  directors : List ConsDirector
deriving DecidableEq, Repr

/-- The active-director filter of the consolidation loop: resigned_on read by
dict.get is None, and the lowered officer_role contains director. -/
def isActiveDirector (d : DirectorData) : Bool :=
  d.resigned_on.isNone && strContains (pyLower (d.officer_role.getD "")) "director"

/-- One director entry of the consolidated structure. -/
def mkConsDirector (r : CompanyResult) (d : DirectorData) : ConsDirector :=
  { name := d.name
    details := { officer_role := d.officer_role.getD ""
                 nationality := d.nationality.getD ""
                 occupation := d.occupation.getD ""
                 appointed_on := d.appointed_on
                 resigned_on := d.resigned_on
                 date_of_birth := d.date_of_birth
                 address := d.address
                 is_active := d.resigned_on.isNone }
    contacts := generate_director_contacts d.name (r.name.getD "") }

/-- The per-result body of get_consolidated_company_data: build the
consolidated company structure; only results tagged companies_house populate
the directors list, and only with active director-role officers. -/
def consolidateOne (pyHash : String → Int) (r : CompanyResult) : ConsolidatedCompany :=
  { company_name := r.name.getD "Unknown"
    source := r.source.getD "unknown"
    company_details :=
      { name := r.name.getD "Unknown"
        company_number := r.company_number.getD ""
        company_status := r.company_status.getD (r.status.getD "")
        company_type := r.company_type.getD ""
        incorporation_date := r.incorporation_date
        dissolved_date := r.dissolved_date
        registered_office_address := r.registered_office_address
        nature_of_business := r.nature_of_business.getD ""
        sic_codes := r.sic_codes.getD []
        accounts_next_due_date := r.accounts_next_due_date
        confirmation_statement_next_due_date := r.confirmation_statement_next_due_date
        companies_house_url := r.companies_house_url.getD (r.url.getD "")
        industry := r.industry.getD ""
        size := r.size.getD ""
        funding := r.funding.getD ""
        employees := r.employees.getD ""
        founded := r.founded.getD ""
        credit_rating := r.credit_rating.getD ""
        revenue := r.revenue.getD ""
        domain := r.domain.getD "" }
    company_contacts := generate_company_contacts pyHash (r.name.getD "")
    directors :=
      if r.source = some "companies_house" then
        (r.directors.filter isActiveDirector).map (mkConsDirector r)
      else [] }

/-! ### ScrapingJob rows, the orchestrator run and the cancel action

A ScrapingJob row carries the state fields of models.ScrapingJob; timestamps
are abstract Nat instants.  ScrapingService.start_scraping_job holds its own
in-memory job object and pushes it to the row with save(); the progress update
in the loop uses save(update_fields=progress) and writes only that column.
The run is embedded as the list of row writes it performs, as a function of
the initial row, of one success flag per search result (whether that
candidate was processed without an exception), and of the two clock readings;
interleaving with the cancel endpoint is then folding the writes, with the
cancel applied between two of them. -/

inductive JobStatus where
  | pending
  | inProgress
  | completed
  | failed
  | cancelled
deriving DecidableEq, Repr

structure Job where
  status : JobStatus
  progress : Nat
  errorMessage : String
  startedAt : Option Nat
  completedAt : Option Nat
deriving DecidableEq, Repr

/-- One database write of the run: a full save of the in-memory job, or the
progress-only save of the loop. -/
inductive DbWrite where
  | full (j : Job)
  | progressOnly (p : Nat)
deriving DecidableEq, Repr

def applyWrite (row : Job) : DbWrite → Job
  | .full j => j
  | .progressOnly p => { row with progress := p }

/-- Apply a sequence of writes to a row. -/
def runDb (row : Job) (ws : List DbWrite) : Job := ws.foldl applyWrite row

/-- The per-candidate loop: before each candidate the progress column is set
to int(processed / total * 100), where processed counts the candidates
processed so far without exception (the values arising in the theorems below
are exact in floating point, so Nat division is the faithful floor). -/
def loopWrites (total : Nat) : List Bool → Nat → List DbWrite
  | [], _ => []
  | ok :: rest, processed =>
    .progressOnly (processed * 100 / total)
      :: loopWrites total rest (if ok then processed + 1 else processed)

/-- ScrapingService.start_scraping_job as its list of row writes.  A job not
pending is a no-op; otherwise the job is moved to in_progress, an empty search
fails the job, and otherwise the loop runs over every candidate (a
per-candidate exception is logged and skipped) and the job is finally saved
as completed with progress 100. -/
def start_scraping_job (dbJob : Job) (results : List Bool) (t0 t1 : Nat) : List DbWrite :=
  if dbJob.status ≠ .pending then []
  else
    let j1 : Job := { dbJob with status := .inProgress, startedAt := some t0, progress := 0 }
    if results.isEmpty then
      [.full j1,
       .full { j1 with status := .failed,
                       errorMessage := "No companies found matching the search criteria",
                       completedAt := some t1 }]
    else
      .full j1
        :: (loopWrites results.length results 0
              ++ [.full { j1 with status := .completed, progress := 100,
                                  completedAt := some t1 }])

/-- The progress-column writes of a run, in order. -/
def progressWrites (ws : List DbWrite) : List Nat :=
  ws.filterMap (fun w => match w with | .progressOnly p => some p | .full _ => none)

/-- ScrapingJobViewSet.cancel: a pending or in_progress job is moved to
cancelled with its completion timestamp set and the endpoint reports success;
any other status leaves the row unchanged and reports an error. -/
def cancelJob (job : Job) (t : Nat) : Job × Bool :=
  if job.status = .pending ∨ job.status = .inProgress then
    ({ job with status := .cancelled, completedAt := some t }, true)
  else (job, false)

/-- ScrapingJobViewSet.restart: a failed or cancelled job returns to pending
with progress 0, cleared timestamps and empty error. -/
def restartJob (job : Job) : Job × Bool :=
  if job.status = .failed ∨ job.status = .cancelled then
    ({ job with status := .pending, startedAt := none, completedAt := none,
                progress := 0, errorMessage := "" }, true)
  else (job, false)

/-! ### ScrapingService.save_company_data and save_director_data

Company rows live in a table with a unique company_number column; the handoff
upserts by that key with the empty string as default.  Director rows are
upserted by the pair of company and name. -/

structure CompanyData where
  name : Option String := none
  company_number : Option String := none
  company_status : Option String := none
  company_type : Option String := none
  incorporation_date : Option PyDate := none
  dissolved_date : Option PyDate := none
  registered_office_address : Option Address := none
  nature_of_business : Option String := none
  sic_codes : Option (List String) := none
  accounts_next_due_date : Option PyDate := none
  confirmation_statement_next_due_date : Option PyDate := none
  companies_house_url : Option String := none
  directors : List DirectorData := []
deriving DecidableEq, Repr

/-- A row of the Company table (models.Company). -/
structure Company where
  scraping_job : Nat
  name : String
  company_number : String
  company_status : String
  company_type : String
  incorporation_date : Option PyDate
  dissolved_date : Option PyDate
  registered_office_address : Option Address
  nature_of_business : String
  sic_codes : List String
  accounts_next_due_date : Option PyDate
  confirmation_statement_next_due_date : Option PyDate
  companies_house_url : String
deriving DecidableEq, Repr

/-- The defaults dict of save_company_data applied to a fresh or existing row. -/
def companyRowFrom (jobId : Nat) (d : CompanyData) : Company :=
  { scraping_job := jobId
    name := d.name.getD ""
    company_number := d.company_number.getD ""
    company_status := d.company_status.getD ""
    company_type := d.company_type.getD ""
    incorporation_date := d.incorporation_date
    dissolved_date := d.dissolved_date
    registered_office_address := d.registered_office_address
    nature_of_business := d.nature_of_business.getD ""
    sic_codes := d.sic_codes.getD []
    accounts_next_due_date := d.accounts_next_due_date
    confirmation_statement_next_due_date := d.confirmation_statement_next_due_date
    companies_house_url := d.companies_house_url.getD "" }

/-- Company.objects.update_or_create keyed by company_number: overwrite the
row holding the key if one exists (the table keeps at most one, provided its
keys are distinct), else append a new row. -/
def upsertCompany (store : List Company) (row : Company) : List Company :=
  if store.any (fun c => c.company_number = row.company_number) then
    store.map (fun c => if c.company_number = row.company_number then row else c)
  else store ++ [row]

/-- A row of the Director table (models.Director), keyed by company and name. -/
structure DirectorRow where
  company_number : String
  name : String
  director_type : String
  title : String
  nationality : String
  occupation : String
  appointed_on : Option PyDate
  resigned_on : Option PyDate
  officer_role : String
  address : Option Address
  date_of_birth : Option String
deriving DecidableEq, Repr

/-- The defaults dict of save_director_data (the parsed dicts never carry a
title key, so dict.get yields the empty string; director_type defaults to
person). -/
def directorRowFrom (companyKey : String) (d : DirectorData) : DirectorRow :=
  { company_number := companyKey
    name := d.name
    director_type := "person"
    title := ""
    nationality := d.nationality.getD ""
    occupation := d.occupation.getD ""
    appointed_on := d.appointed_on
    resigned_on := d.resigned_on
    officer_role := d.officer_role.getD ""
    address := d.address
    date_of_birth := d.date_of_birth }

/-- Director.objects.update_or_create keyed by (company, name). -/
def save_director_data (dstore : List DirectorRow) (companyKey : String) (d : DirectorData) :
    List DirectorRow :=
  let row := directorRowFrom companyKey d
  if dstore.any (fun e => e.company_number = companyKey ∧ e.name = d.name) then
    dstore.map (fun e => if e.company_number = companyKey ∧ e.name = d.name then row else e)
  else dstore ++ [row]

/-- ScrapingService.save_company_data: upsert the company by its (possibly
empty) company number, then upsert each parsed director under it. -/
def save_company_data (jobId : Nat) (store : List Company) (dstore : List DirectorRow)
    (d : CompanyData) : List Company × List DirectorRow :=
  let row := companyRowFrom jobId d
  (upsertCompany store row,
   d.directors.foldl (fun ds dd => save_director_data ds row.company_number dd) dstore)

/-- The company_number column of every row, in table order. -/
def companyKeys (store : List Company) : List String := store.map (fun c => c.company_number)

/-- A sample parsed director, used by the concrete witnesses below. -/
def sampleDirector : DirectorData :=
  { name := "JOHN SMITH", officer_role := some "Director",
    appointed_on := some ⟨2019, 1, 1⟩ }

/-- A sample authoritative-source company result, used by concrete witnesses. -/
def sampleResult : CompanyResult :=
  { name := some "Example Corp", source := some "companies_house",
    company_number := some "01234567", company_status := some "active",
    directors := [sampleDirector] }

/-! ### Helper lemmas -/

/-- A write sequence ending in a full save leaves the row at exactly that
saved job, whatever happened to the row before. -/
theorem runDb_tail_full (l : List DbWrite) (row : Job) (j : Job) :
    runDb row (l ++ [.full j]) = j := by
  simp [runDb, List.foldl_append, applyWrite]

/-! ### C10 — the cancel endpoint -/

/-- C10: cancel succeeds on a pending job exactly as on an in-progress one,
moving it straight to cancelled with its completion timestamp set (the row is
otherwise untouched, in particular it never acquires a start timestamp); a job
in any other status is left unchanged and the endpoint reports an error. -/
theorem C10_cancel_pending_or_in_progress (job : Job) (t : Nat) :
    (job.status = .pending →
       cancelJob job t = ({ job with status := .cancelled, completedAt := some t }, true)) ∧
    (job.status = .inProgress →
       cancelJob job t = ({ job with status := .cancelled, completedAt := some t }, true)) ∧
    (job.status ≠ .pending → job.status ≠ .inProgress → cancelJob job t = (job, false)) := by
  refine ⟨fun h => ?_, fun h => ?_, fun h1 h2 => ?_⟩
  · simp [cancelJob, h]
  · simp [cancelJob, h]
  · simp [cancelJob, h1, h2]

/-- Witness for C10 at a concrete pending job. -/
theorem C10_witness :
    (Job.mk .pending 0 "" none none).status = .pending ∧
    cancelJob (Job.mk .pending 0 "" none none) 7 =
      (Job.mk .cancelled 0 "" none (some 7), true) :=
  ⟨rfl, (C10_cancel_pending_or_in_progress (Job.mk .pending 0 "" none none) 7).1 rfl⟩

/-! ### C6 — the date parser -/

/-- C6: the four formats are tried in a fixed order with the first successful
parse winning, the four example strings all parse to 15 March 2020, and an
unparsable string parses to none (the embedding is a total function, so no
exception can escape). -/
theorem C6_parse_date :
    parse_date "15 March 2020" = some ⟨2020, 3, 15⟩ ∧
    parse_date "15 Mar 2020" = some ⟨2020, 3, 15⟩ ∧
    parse_date "2020-03-15" = some ⟨2020, 3, 15⟩ ∧
    parse_date "15/03/2020" = some ⟨2020, 3, 15⟩ ∧
    parse_date "not a date" = none ∧
    (∀ s d, s ≠ "" → tryFormat fmtDBY s = some d → parse_date s = some d) := by
  refine ⟨by decide, by decide, by decide, by decide, by decide, fun s d hs hf => ?_⟩
  simp [parse_date, strptimeFormats, firstSome, hs, hf]

/-- Witness for C6: its first-format-wins clause applied at a concrete string. -/
theorem C6_witness :
    tryFormat fmtDBY "15 March 2020" = some ⟨2020, 3, 15⟩ ∧
    parse_date "15 March 2020" = some ⟨2020, 3, 15⟩ :=
  ⟨by decide, C6_parse_date.2.2.2.2.2 "15 March 2020" ⟨2020, 3, 15⟩
    (by decide) (by decide)⟩

/-! ### C3 — determinism of contact synthesis -/

/-- C3 as stated is false: the synthesized phone number reads the Python
builtin hash of the company name, and hash on str is salted per process, so
two runs of the program are two different values of the pyHash parameter; two
hash functions that differ on the name give different contact lists. -/
theorem C3_counterexample :
    generate_company_contacts (fun _ => 0) "Acme" ≠
      generate_company_contacts (fun _ => 1) "Acme" := by decide

/-- C3 amended: contact synthesis is deterministic up to the process hash
seed — the output depends only on the company name and the hash value of the
name, so within one process (one hash function) two calls with the same name
give identical lists, and all fields except the phone value are independent
of the seed. -/
theorem C3_amended (h1 h2 : String → Int) (n : String) (hh : h1 n = h2 n) :
    generate_company_contacts h1 n = generate_company_contacts h2 n := by
  simp only [generate_company_contacts, hh]

/-- Witness for C3 amended: two syntactically different hash functions that
agree on the name. -/
theorem C3_witness :
    (fun _ : String => (5 : Int)) "Acme" = (fun _ : String => (10 : Int) - 5) "Acme" ∧
    generate_company_contacts (fun _ => (5 : Int)) "Acme" =
      generate_company_contacts (fun _ => (10 : Int) - 5) "Acme" :=
  ⟨by decide, C3_amended _ _ "Acme" (by decide)⟩

/-! ### C8 — a run with candidates always completes -/

/-- C8: whenever the search returns at least one candidate, the run ends with
the job completed at progress 100, for every pattern of per-candidate
successes and failures — in particular also when every candidate raises and
nothing is saved. -/
theorem C8_run_always_completes (dbJob : Job) (results : List Bool) (t0 t1 : Nat)
    (hp : dbJob.status = .pending) (hr : results ≠ []) :
    (runDb dbJob (start_scraping_job dbJob results t0 t1)).status = .completed ∧
    (runDb dbJob (start_scraping_job dbJob results t0 t1)).progress = 100 := by
  have hne : results.isEmpty = false := by
    cases results with
    | nil => exact absurd rfl hr
    | cons a l => rfl
  rw [start_scraping_job]
  simp only [hp, hne, ne_eq, not_true_eq_false, if_false, Bool.false_eq_true]
  rw [← List.cons_append, runDb_tail_full]
  exact ⟨rfl, rfl⟩

/-- Witness for C8: two candidates, both of which raise, still complete. -/
theorem C8_witness :
    (runDb (Job.mk .pending 0 "" none none)
        (start_scraping_job (Job.mk .pending 0 "" none none) [false, false] 0 1)).status
      = .completed ∧
    (runDb (Job.mk .pending 0 "" none none)
        (start_scraping_job (Job.mk .pending 0 "" none none) [false, false] 0 1)).progress
      = 100 :=
  C8_run_always_completes (Job.mk .pending 0 "" none none) [false, false] 0 1 rfl (by decide)

/-! ### C1 — cancellation is only respected before the run starts -/

/-- Dropping any proper prefix of a write sequence ending in a full save and
replaying the rest onto any row still ends at the saved job. -/
theorem runDb_drop_tail_full (l : List DbWrite) (j : Job) (k : Nat) (row : Job)
    (hk : k < (l ++ [DbWrite.full j]).length) :
    runDb row ((l ++ [DbWrite.full j]).drop k) = j := by
  have hkl : k ≤ l.length := by
    simp only [List.length_append, List.length_cons, List.length_nil] at hk
    omega
  rw [List.drop_append_of_le_length hkl, runDb_tail_full]

/-- C1 as stated is false: a job cancelled while its run is in progress is
moved back out of cancelled by the run itself.  Concretely, for a pending job
with one candidate, applying the first write of the run (the transition to
in_progress), then the cancel endpoint (which succeeds and marks the row
cancelled), then the remaining writes of the run, leaves the row completed:
the loop never observes the cancellation and the post-loop completion save
overwrites the cancelled status. -/
theorem C1_counterexample :
    ((cancelJob (runDb (Job.mk .pending 0 "" none none)
          ((start_scraping_job (Job.mk .pending 0 "" none none) [true] 0 1).take 1)) 2).1.status
        = .cancelled) ∧
    ((cancelJob (runDb (Job.mk .pending 0 "" none none)
          ((start_scraping_job (Job.mk .pending 0 "" none none) [true] 0 1).take 1)) 2).2
        = true) ∧
    ((runDb (cancelJob (runDb (Job.mk .pending 0 "" none none)
          ((start_scraping_job (Job.mk .pending 0 "" none none) [true] 0 1).take 1)) 2).1
        ((start_scraping_job (Job.mk .pending 0 "" none none) [true] 0 1).drop 1)).status
        = .completed) := by
  refine ⟨by decide, by decide, by decide⟩

/-- C1 amended: the only cancellation the orchestrator respects is one that
reaches the row while the job is still pending — the initial status check then
makes the run a no-op with no writes.  Once a run is under way it never
observes cancellation: from any point strictly inside the write sequence of a
run with at least one candidate, replaying the remaining writes onto any row
state (in particular a row just moved to cancelled) ends with the row
completed, because the post-loop completion save overwrites the whole row. -/
theorem C1_amended :
    (∀ (dbJob : Job) (results : List Bool) (t0 t1 : Nat),
        dbJob.status = .cancelled → start_scraping_job dbJob results t0 t1 = []) ∧
    (∀ (dbJob : Job) (results : List Bool) (t0 t1 : Nat) (row : Job) (k : Nat),
        dbJob.status = .pending → results ≠ [] →
        k < (start_scraping_job dbJob results t0 t1).length →
        (runDb row ((start_scraping_job dbJob results t0 t1).drop k)).status = .completed) := by
  constructor
  · intro dbJob results t0 t1 h
    rw [start_scraping_job]
    simp [h]
  · intro dbJob results t0 t1 row k hp hr hk
    have hne : results.isEmpty = false := by
      cases results with
      | nil => exact absurd rfl hr
      | cons a l => rfl
    rw [start_scraping_job] at hk ⊢
    simp only [hp, hne, ne_eq, not_true_eq_false, if_false, Bool.false_eq_true] at hk ⊢
    rw [← List.cons_append] at hk ⊢
    rw [runDb_drop_tail_full _ _ _ _ hk]

/-- Witness for C1 amended: the remaining writes of a one-candidate run,
replayed from a cancelled row, end completed. -/
theorem C1_witness :
    (Job.mk .pending 0 "" none none).status = .pending ∧
    ([true] : List Bool) ≠ [] ∧
    1 < (start_scraping_job (Job.mk .pending 0 "" none none) [true] 0 1).length ∧
    (runDb (Job.mk .cancelled 0 "" none (some 2))
        ((start_scraping_job (Job.mk .pending 0 "" none none) [true] 0 1).drop 1)).status
      = .completed :=
  ⟨rfl, by decide, by decide,
   C1_amended.2 (Job.mk .pending 0 "" none none) [true] 0 1
     (Job.mk .cancelled 0 "" none (some 2)) 1 rfl (by decide) (by decide)⟩

/-! ### C2 — the progress formula of the loop -/

/-- C2 as stated is false: the loop computes progress from the count of
candidates processed so far without exception, not from the discovery index.
With two candidates of which the first raises, the write before the candidate
at index 1 sets progress 0, while the claim prescribes floor(1/2 x 100) = 50. -/
theorem C2_counterexample :
    progressWrites (start_scraping_job (Job.mk .pending 0 "" none none) [false, true] 0 1)
      = [0, 0] ∧ (1 * 100 / 2 : Nat) = 50 ∧ (0 : Nat) ≠ 50 := by
  refine ⟨by decide, by decide, by decide⟩

/-- The i-th progress write of the loop is the floor of processed / total
times 100, where processed counts the successful candidates before i. -/
theorem progressWrites_loopWrites (total : Nat) (res : List Bool) :
    ∀ (proc i : Nat), i < res.length →
      (progressWrites (loopWrites total res proc))[i]? =
        some ((proc + (res.take i).count true) * 100 / total) := by
  induction res with
  | nil => intro proc i h; simp at h
  | cons ok rest ih =>
    intro proc i h
    cases i with
    | zero => simp [loopWrites, progressWrites]
    | succ i =>
      have hlt : i < rest.length := by simpa using h
      have hrec := ih (if ok then proc + 1 else proc) i hlt
      have hcount : (if ok then proc + 1 else proc) + (rest.take i).count true
          = proc + (((ok :: rest).take (i + 1)).count true) := by
        cases ok <;> simp [List.count_cons] <;> omega
      calc (progressWrites (loopWrites total (ok :: rest) proc))[i + 1]?
          = (progressWrites (loopWrites total rest (if ok then proc + 1 else proc)))[i]? := by
            simp [loopWrites, progressWrites]
        _ = some (((if ok then proc + 1 else proc) + (rest.take i).count true) * 100 / total) :=
            hrec
        _ = some ((proc + (((ok :: rest).take (i + 1)).count true)) * 100 / total) := by
            rw [hcount]

/-- C2 amended: before processing the candidate at discovery index i of a run
whose search returned the given candidates, the orchestrator sets progress to
floor(successes-so-far / total x 100), where successes-so-far is the number of
earlier candidates processed without an exception; this equals
floor(i / total x 100) exactly when every earlier candidate succeeded. -/
theorem C2_amended (dbJob : Job) (results : List Bool) (t0 t1 : Nat) (i : Nat)
    (hp : dbJob.status = .pending) (hi : i < results.length) :
    (progressWrites (start_scraping_job dbJob results t0 t1))[i]? =
      some (((results.take i).count true) * 100 / results.length) := by
  have hne : results.isEmpty = false := by
    cases results with
    | nil => simp at hi
    | cons a l => rfl
  rw [start_scraping_job]
  simp only [hp, hne, ne_eq, not_true_eq_false, if_false, Bool.false_eq_true]
  have hmain := progressWrites_loopWrites results.length results 0 i hi
  simp only [Nat.zero_add] at hmain
  simpa [progressWrites, List.filterMap_append] using hmain

/-- Witness for C2 amended at the counterexample run. -/
theorem C2_witness :
    (progressWrites (start_scraping_job (Job.mk .pending 0 "" none none) [false, true] 0 1))[1]?
      = some ((([false, true] : List Bool).take 1).count true * 100
                / ([false, true] : List Bool).length) :=
  C2_amended (Job.mk .pending 0 "" none none) [false, true] 0 1 1 rfl (by decide)

/-! ### C5 — officer extraction returns nothing without keyword or name -/

/-- C5: parse_director_section yields a record exactly when the raw text
passes the keyword filter and the ordered name strategies produce a name; a
fragment lacking every keyword, or yielding no name by any strategy, produces
none, and a produced record always carries the name of the first successful
strategy (the heading strategy when the first heading-like text has no role
keyword and at least two tokens, else the first matching textual pattern). -/
theorem C5_officer_extraction (f : Fragment) :
    (hasOfficerKeyword f.text = false → parse_director_section f = none) ∧
    (extractName f = none → parse_director_section f = none) ∧
    (∀ d, parse_director_section f = some d →
        hasOfficerKeyword f.text = true ∧ extractName f = some d.name) ∧
    (∀ h, f.headings.head? = some h → headingHasRoleKeyword h = false →
        (pySplit h).length ≥ 2 → extractName f = some h) := by
  refine ⟨fun hk => ?_, fun hn => ?_, fun d hd => ?_, fun h hh hkw hlen => ?_⟩
  · simp [parse_director_section, hk]
  · simp [parse_director_section, hn]
  · cases hkb : hasOfficerKeyword f.text with
    | false => simp [parse_director_section, hkb] at hd
    | true =>
      cases hnb : extractName f with
      | none => simp [parse_director_section, hkb, hnb] at hd
      | some n =>
        simp [parse_director_section, hkb, hnb] at hd
        subst hd
        exact ⟨rfl, by simpa using hnb⟩
  · unfold extractName headingName
    rw [hh]
    simp [hkw, hlen]

/-- Witness for C5: a fragment with no officer keyword is rejected. -/
theorem C5_witness :
    hasOfficerKeyword "hello world" = false ∧
    parse_director_section (Fragment.mk [] "hello world") = none :=
  ⟨by decide, (C5_officer_extraction (Fragment.mk [] "hello world")).1 (by decide)⟩

/-! ### C7 — at most one record per name on an officers page -/

/-- The extraction loop preserves distinctness of the kept names. -/
theorem collectDirectors_names_nodup (l : List PageItem) :
    ∀ acc : List DirectorData, (acc.map (fun d => d.name)).Nodup →
      ((collectDirectors l acc).map (fun d => d.name)).Nodup := by
  induction l with
  | nil => intro acc h; simpa [collectDirectors] using h
  | cons it rest ih =>
    intro acc h
    cases hp : parse_director_section it.frag with
    | none =>
      simp only [collectDirectors, hp]
      exact ih acc h
    | some d =>
      simp only [collectDirectors, hp]
      split_ifs with hname hany
      · exact ih acc h
      · exact ih acc h
      · have hnot : d.name ∉ acc.map (fun d => d.name) := by
          intro hmem
          rcases List.mem_map.mp hmem with ⟨e, he, hee⟩
          exact hany (List.any_eq_true.mpr ⟨e, he, by simp [hee]⟩)
        refine ih (acc ++ [d]) ?_
        simp only [List.map_append, List.map_cons, List.map_nil]
        rw [List.nodup_append]
        exact ⟨h, List.nodup_singleton _, by simpa using hnot⟩

/-- A name is kept by the extraction loop iff it was already kept or some item
of the list parses to a record with that (truthy) name. -/
theorem collectDirectors_names_mem (n : String) :
    ∀ (l : List PageItem) (acc : List DirectorData),
      (n ∈ (collectDirectors l acc).map (fun d => d.name)) ↔
        (n ∈ acc.map (fun d => d.name) ∨
         (n ≠ "" ∧ ∃ it ∈ l, ∃ d, parse_director_section it.frag = some d ∧ d.name = n)) := by
  intro l
  induction l with
  | nil => intro acc; simp [collectDirectors]
  | cons it rest ih =>
    intro acc
    cases hp : parse_director_section it.frag with
    | none =>
      simp only [collectDirectors, hp]
      rw [ih acc]
      simp [hp]
    | some d =>
      simp only [collectDirectors, hp]
      split_ifs with hname hany
      · rw [ih acc]
        constructor
        · rintro (ha | ⟨hne, it1, hit1, d1, hd1, hn1⟩)
          · exact Or.inl ha
          · exact Or.inr ⟨hne, it1, List.mem_cons_of_mem it hit1, d1, hd1, hn1⟩
        · rintro (ha | ⟨hne, it1, hit1, d1, hd1, hn1⟩)
          · exact Or.inl ha
          · rcases List.mem_cons.mp hit1 with rfl | hmem
            · rw [hp] at hd1
              cases hd1
              exact absurd (hname ▸ hn1).symm hne
            · exact Or.inr ⟨hne, it1, hmem, d1, hd1, hn1⟩
      · have hd2 : d.name ∈ acc.map (fun d => d.name) := by
          rcases List.any_eq_true.mp hany with ⟨e, he, hee⟩
          simp only [decide_eq_true_eq] at hee
          exact List.mem_map.mpr ⟨e, he, hee⟩
        rw [ih acc]
        constructor
        · rintro (ha | ⟨hne, it1, hit1, d1, hd1, hn1⟩)
          · exact Or.inl ha
          · exact Or.inr ⟨hne, it1, List.mem_cons_of_mem it hit1, d1, hd1, hn1⟩
        · rintro (ha | ⟨hne, it1, hit1, d1, hd1, hn1⟩)
          · exact Or.inl ha
          · rcases List.mem_cons.mp hit1 with rfl | hmem
            · rw [hp] at hd1
              cases hd1
              exact Or.inl (hn1 ▸ hd2)
            · exact Or.inr ⟨hne, it1, hmem, d1, hd1, hn1⟩
      · rw [ih (acc ++ [d])]
        simp only [List.map_append, List.map_cons, List.map_nil, List.mem_append,
          List.mem_singleton]
        constructor
        · rintro ((ha | hb) | ⟨hne, it1, hit1, d1, hd1, hn1⟩)
          · exact Or.inl ha
          · exact Or.inr ⟨fun hn0 => hname (hb.symm.trans hn0), it,
              List.mem_cons_self it rest, d, hp, hb.symm⟩
          · exact Or.inr ⟨hne, it1, List.mem_cons_of_mem it hit1, d1, hd1, hn1⟩
        · rintro (ha | ⟨hne, it1, hit1, d1, hd1, hn1⟩)
          · exact Or.inl (Or.inl ha)
          · rcases List.mem_cons.mp hit1 with rfl | hmem
            · rw [hp] at hd1
              cases hd1
              exact Or.inl (Or.inr hn1.symm)
            · exact Or.inr ⟨hne, it1, hmem, d1, hd1, hn1⟩

/-- C7: the director list scraped from one officers page holds at most one
record per extracted name — the names of the result are pairwise distinct —
and a name appears exactly when some identity-deduplicated fragment of the
page parses to a record carrying that truthy name (so two fragments yielding
the same name produce exactly one record). -/
theorem C7_officer_dedup (items : List PageItem) :
    ((scrape_directors_page items).map (fun d => d.name)).Nodup ∧
    ∀ n : String,
      (n ∈ (scrape_directors_page items).map (fun d => d.name)) ↔
        (n ≠ "" ∧ ∃ it ∈ dedupById items [],
          ∃ d, parse_director_section it.frag = some d ∧ d.name = n) := by
  constructor
  · exact collectDirectors_names_nodup (dedupById items []) [] (by simp)
  · intro n
    rw [scrape_directors_page, collectDirectors_names_mem]
    simp

/-! ### C4 — only authoritative active directors are consolidated -/

/-- C4: every director entry of a consolidation result comes from a result
tagged companies_house and corresponds to an input officer whose resignation
date (read through dict.get) is None and whose lowered role text contains
director; a result from any other source has an empty directors list. -/
theorem C4_director_filter (pyHash : String → Int) (r : CompanyResult) :
    (∀ cd ∈ (consolidateOne pyHash r).directors,
        r.source = some "companies_house" ∧
        ∃ d ∈ r.directors, d.resigned_on = none ∧
          strContains (pyLower (d.officer_role.getD "")) "director" = true ∧
          cd = mkConsDirector r d) ∧
    (r.source ≠ some "companies_house" → (consolidateOne pyHash r).directors = []) := by
  constructor
  · intro cd hcd
    by_cases hs : r.source = some "companies_house"
    · refine ⟨hs, ?_⟩
      simp only [consolidateOne, hs, if_pos] at hcd
      rcases List.mem_map.mp hcd with ⟨d, hdm, hde⟩
      rcases List.mem_filter.mp hdm with ⟨hdr, hact⟩
      simp only [isActiveDirector, Bool.and_eq_true, Option.isNone_iff_eq_none] at hact
      exact ⟨d, hdr, hact.1, hact.2, hde.symm⟩
    · simp [consolidateOne, hs] at hcd
  · intro hs
    simp [consolidateOne, hs]

/-- Witness for C4 at a concrete authoritative result with one active
director. -/
theorem C4_witness :
    mkConsDirector sampleResult sampleDirector ∈
      (consolidateOne (fun _ => 0) sampleResult).directors ∧
    sampleResult.source = some "companies_house" ∧
    ∃ d ∈ sampleResult.directors, d.resigned_on = none ∧
      strContains (pyLower (d.officer_role.getD "")) "director" = true ∧
      mkConsDirector sampleResult sampleDirector = mkConsDirector sampleResult d :=
  ⟨by decide,
   ((C4_director_filter (fun _ => 0) sampleResult).1
      (mkConsDirector sampleResult sampleDirector) (by decide)).1,
   ((C4_director_filter (fun _ => 0) sampleResult).1
      (mkConsDirector sampleResult sampleDirector) (by decide)).2⟩

/-! ### C9 — companies without a number collapse onto one row -/

/-- Keys of the upsert result: unchanged when the key was present, appended
otherwise. -/
theorem companyKeys_upsert (store : List Company) (row : Company) :
    companyKeys (upsertCompany store row) =
      if store.any (fun c => c.company_number = row.company_number) then companyKeys store
      else companyKeys store ++ [row.company_number] := by
  unfold upsertCompany companyKeys
  split_ifs with h
  · rw [List.map_map]
    apply List.map_congr_left
    intro c _
    by_cases hc : c.company_number = row.company_number
    · simp [Function.comp, hc]
    · simp [Function.comp, hc]
  · simp

/-- The upsert preserves distinctness of the keys. -/
theorem companyKeys_upsert_nodup (store : List Company) (row : Company)
    (h : (companyKeys store).Nodup) : (companyKeys (upsertCompany store row)).Nodup := by
  rw [companyKeys_upsert]
  split_ifs with ha
  · exact h
  · rw [List.nodup_append]
    refine ⟨h, List.nodup_singleton _, ?_⟩
    intro x hx hx2
    simp only [List.mem_singleton] at hx2
    subst hx2
    rcases List.mem_map.mp hx with ⟨c, hc, hck⟩
    exact ha (List.any_eq_true.mpr ⟨c, hc, by simp only [decide_eq_true_eq]; exact hck⟩)

/-- Every row of the upsert result is the new row or an untouched row with a
different key. -/
theorem upsertCompany_mem (store : List Company) (row c : Company)
    (hc : c ∈ upsertCompany store row) :
    c = row ∨ (c ∈ store ∧ c.company_number ≠ row.company_number) := by
  unfold upsertCompany at hc
  split_ifs at hc with h
  · rcases List.mem_map.mp hc with ⟨c0, hc0, hce⟩
    by_cases hk : c0.company_number = row.company_number
    · left
      rw [← hce]
      simp [hk]
    · right
      rw [← hce]
      simp only [hk, if_false]
      exact ⟨hc0, hk⟩
  · rcases List.mem_append.mp hc with h1 | h2
    · by_cases hk : c.company_number = row.company_number
      · exact absurd (List.any_eq_true.mpr ⟨c, h1, by simp only [decide_eq_true_eq]; exact hk⟩) h
      · exact Or.inr ⟨h1, hk⟩
    · left
      simpa using h2

/-- The new row is always present after the upsert. -/
theorem mem_upsertCompany_self (store : List Company) (row : Company) :
    row ∈ upsertCompany store row := by
  unfold upsertCompany
  split_ifs with h
  · rcases List.any_eq_true.mp h with ⟨c, hc, hck⟩
    simp only [decide_eq_true_eq] at hck
    refine List.mem_map.mpr ⟨c, hc, ?_⟩
    simp [hck]
  · simp

/-- In a table whose keys are distinct, the rows sharing the key of a present
row are exactly that row. -/
theorem filter_key_length_of_nodup (u : List Company) (x : Company)
    (h : (companyKeys u).Nodup) (hx : x ∈ u) :
    (u.filter (fun c => c.company_number = x.company_number)).length = 1 := by
  induction u with
  | nil => cases hx
  | cons c u' ih =>
    simp only [companyKeys, List.map_cons, List.nodup_cons] at h
    rcases List.mem_cons.mp hx with rfl | hx'
    · have hnone : u'.filter (fun c => c.company_number = x.company_number) = [] := by
        rw [List.filter_eq_nil_iff]
        intro a ha
        simp only [decide_eq_true_eq]
        intro hak
        exact h.1 (hak ▸ List.mem_map.mpr ⟨a, ha, rfl⟩)
      simp [List.filter_cons, hnone]
    · have hne : ¬ c.company_number = x.company_number := by
        intro hck
        exact h.1 (hck ▸ (List.mem_map.mpr ⟨x, hx', rfl⟩ : x.company_number ∈ companyKeys u'))
      rw [List.filter_cons]
      simp only [hne, decide_eq_true_eq, if_false]
      exact ih h.2 hx'

/-- C9: the handoff upserts by company number with the empty string standing
in for an absent number, keeping the table keys distinct; hence two processed
candidates whose extracted number is absent collapse onto the single row with
the empty key, the second save overwriting the fields of the first. -/
theorem C9_empty_number_collapse :
    (∀ (store : List Company) (dstore : List DirectorRow) (jobId : Nat) (d : CompanyData),
        (companyKeys store).Nodup →
        (companyKeys (save_company_data jobId store dstore d).1).Nodup) ∧
    (∀ (store : List Company) (dstore : List DirectorRow) (j1 j2 : Nat) (d1 d2 : CompanyData),
        (companyKeys store).Nodup →
        d1.company_number.getD "" = "" → d2.company_number.getD "" = "" →
        (((save_company_data j2 (save_company_data j1 store dstore d1).1
              (save_company_data j1 store dstore d1).2 d2).1.filter
            (fun c => c.company_number = "")).length = 1 ∧
         ∀ c ∈ (save_company_data j2 (save_company_data j1 store dstore d1).1
              (save_company_data j1 store dstore d1).2 d2).1,
           c.company_number = "" → c = companyRowFrom j2 d2)) := by
  constructor
  · intro store dstore jobId d hnd
    exact companyKeys_upsert_nodup store (companyRowFrom jobId d) hnd
  · intro store dstore j1 j2 d1 d2 hnd hd1 hd2
    have hk2 : (companyRowFrom j2 d2).company_number = "" := hd2
    have hs1 : (companyKeys (upsertCompany store (companyRowFrom j1 d1))).Nodup :=
      companyKeys_upsert_nodup store (companyRowFrom j1 d1) hnd
    constructor
    · have hlen := filter_key_length_of_nodup
        (upsertCompany (upsertCompany store (companyRowFrom j1 d1)) (companyRowFrom j2 d2))
        (companyRowFrom j2 d2)
        (companyKeys_upsert_nodup _ (companyRowFrom j2 d2) hs1)
        (mem_upsertCompany_self _ (companyRowFrom j2 d2))
      simp only [hk2] at hlen
      exact hlen
    · intro c hc hck
      rcases upsertCompany_mem _ (companyRowFrom j2 d2) c hc with rfl | ⟨hmem, hneq⟩
      · rfl
      · exact absurd (hck.trans hk2.symm) hneq

/-- Witness for C9: two saves with absent company numbers into an empty table
leave exactly one row, carrying the fields of the second save. -/
theorem C9_witness :
    (((save_company_data 2 (save_company_data 1 [] [] { name := some "Alpha" }).1
          (save_company_data 1 [] [] { name := some "Alpha" }).2
          { name := some "Beta" }).1.filter
        (fun c => c.company_number = "")).length = 1 ∧
     ∀ c ∈ (save_company_data 2 (save_company_data 1 [] [] { name := some "Alpha" }).1
          (save_company_data 1 [] [] { name := some "Alpha" }).2
          { name := some "Beta" }).1,
       c.company_number = "" → c = companyRowFrom 2 { name := some "Beta" }) :=
  C9_empty_number_collapse.2 [] [] 1 2 { name := some "Alpha" } { name := some "Beta" }
    (by decide) (by decide) (by decide)

end UKCompanyScraper









